import Mathlib

/-!
# Verification of the dendron SQL-client core

Shallow embedding of the dendron repository (Rust) in Lean 4.

The embedding mirrors the source files:

* `dendron-core/src/query.rs`      — statement classifier (`QueryType`,
  `analyze_query`, `analyze_query_fallback`, `has_top_level_order_by`,
  `analyze_multi_statement`, `most_dangerous_type`, `QuerySafetyCheck`,
  `extract_source_table`, `quote_ident`);
* `src-tauri/src/commands/queries.rs` — the `execute_query` command's
  SELECT-wrapping logic;
* `src-tauri/src/state.rs`         — `TabContext` generation-counted
  query lifecycle;
* `dendron-core/src/db/ssh.rs`     — `check_known_hosts` trust-on-first-use;
* `dendron-core/src/db/connection.rs` — `update_cell` SQL construction;
* `src-tauri/src/db/postgres.rs`   — `execute_query` row collection /
  truncation / result shaping;
* `src-tauri/src/security/encryption.rs` — `EncryptedPassword`.

The SQL grammars of the external `sqlparser` crate are not part of the
repository; calls to `Parser::parse_sql` are therefore modelled by an
explicit *dialect cascade result*: a `List (Option (List Stmt))`, one entry
per dialect in the order tried by the source
(`PostgreSqlDialect, SQLiteDialect, GenericDialect`), where `none` stands
for `Err(_)` and `some stmts` for `Ok(stmts)`.  All control flow around the
cascade is translated from the source; concrete theorems instantiate the
cascade with the statement list `sqlparser` produces for the concrete input.
-/

namespace Dendron

/-! ## Rust string primitives (ASCII-faithful models)

The repository only ever feeds ASCII SQL text through these helpers; the
models below agree with the Rust standard library on all ASCII input.
-/

/-- Model of Rust `char::is_whitespace`, restricted to the ASCII range
(the Unicode `White_Space` property restricted to code points < 128). -/
def rustIsWhitespace (c : Char) : Bool :=
  c = ' ' || c = '\t' || c = '\n' || c = '\r' || c = '\x0b' || c = '\x0c'

/-- Rust `str::trim_start` on the character list of a string. -/
def rustTrimStart (l : List Char) : List Char :=
  l.dropWhile rustIsWhitespace

/-- Rust `str::trim_end` on the character list of a string. -/
def rustTrimEnd (l : List Char) : List Char :=
  (l.reverse.dropWhile rustIsWhitespace).reverse

/-- Rust `str::trim` on the character list of a string. -/
def rustTrim (l : List Char) : List Char :=
  rustTrimEnd (rustTrimStart l)

/-- Rust `str::trim_end_matches(c)` with a single-char pattern: removes all
trailing occurrences of `c`. -/
def rustTrimEndMatchesChar (c : Char) (l : List Char) : List Char :=
  (l.reverse.dropWhile (fun x => x = c)).reverse

/-- Split a character list on a separator character; every separator
occurrence produces a boundary (empty pieces are kept). -/
def splitOnChar (c : Char) : List Char → List (List Char)
  | [] => [[]]
  | x :: xs =>
    let r := splitOnChar c xs
    if x = c then [] :: r
    else
      match r with
      | [] => [[x]]
      | h :: t => (x :: h) :: t

/-- Rust `str::lines`: split on `'\n'`, drop a final empty piece (i.e. a
trailing line terminator produces no extra line), then strip one trailing
`'\r'` from each line. -/
def rustLines (l : List Char) : List (List Char) :=
  let ps := splitOnChar '\n' l
  let ps :=
    match ps.getLast? with
    | some [] => ps.dropLast
    | _ => ps
  ps.map (fun p => if p.getLast? = some '\r' then p.dropLast else p)

/-- Accumulator worker for `rustSplitWhitespace`. -/
def splitWsAux : List Char → List Char → List (List Char)
  | [], acc => if acc.isEmpty then [] else [acc.reverse]
  | c :: cs, acc =>
    if rustIsWhitespace c then
      if acc.isEmpty then splitWsAux cs [] else acc.reverse :: splitWsAux cs []
    else splitWsAux cs (c :: acc)

/-- Rust `str::split_whitespace`: maximal non-whitespace runs, in order. -/
def rustSplitWhitespace (l : List Char) : List (List Char) :=
  splitWsAux l []

/-- Rust `str::to_uppercase` on ASCII input (uppercases `'a'..'z'`). -/
def rustToUppercase (l : List Char) : List Char :=
  l.map Char.toUpper

/-! ## `QueryType` (dendron-core/src/query.rs) -/

/-- `enum QueryType` from `dendron-core/src/query.rs`. -/
inductive QueryType
  | select
  | insert
  | update
  | delete
  | drop
  | truncate
  | alter
  | create
  | other
deriving DecidableEq, Repr

/-- `QueryType::is_destructive` from `dendron-core/src/query.rs`. -/
def QueryType.is_destructive : QueryType → Bool
  | .insert | .update | .delete | .drop | .truncate | .alter => true
  | _ => false

/-! ## sqlparser AST fragment

Only the shape inspected by the repository is modelled; payloads the
repository never reads are collapsed (`Option Unit` mirrors `Option<_>`
inspected solely through `is_some`, `List Unit` mirrors a `Vec<_>`
inspected solely through `is_empty`/`len`).
-/

/-- `sqlparser::ast::TableFactor`, restricted to the distinction made by
`check_query_editable`: a plain `Table { name, args, .. }` (with `name`
the identifier values of the dotted `ObjectName` and `args` the
table-valued-function argument list) versus anything else. -/
inductive TableFactor
  | table (name : List String) (args : Option Unit)
  | otherFactor
deriving DecidableEq, Repr

/-- `sqlparser::ast::TableWithJoins`. -/
structure TableWithJoins where
  relation : TableFactor
  joins : List Unit
deriving DecidableEq, Repr

/-- `sqlparser::ast::GroupByExpr`. -/
inductive GroupByExpr
  | expressions (exprs : List Unit)
  | all
deriving DecidableEq, Repr

/-- The fields of `sqlparser::ast::Select` read by `check_query_editable`. -/
structure SelectBody where
  distinct : Option Unit
  group_by : GroupByExpr
  having : Option Unit
  from_ : List TableWithJoins
deriving DecidableEq, Repr

/-- `sqlparser::ast::SetExpr`: a plain `Select` versus any other body
(set operations, `VALUES`, nested query, ...). -/
inductive SetExpr
  | select (s : SelectBody)
  | otherSet
deriving DecidableEq, Repr

/-- The fields of `sqlparser::ast::Query` read by the repository:
`with` (CTEs), `body`, `order_by`. -/
structure QueryAst where
  with_ : Option Unit
  body : SetExpr
  order_by : Option Unit
deriving DecidableEq, Repr

/-- `sqlparser::ast::Statement`, restricted to the constructors matched by
`classify_statement`; every unmatched constructor is `otherStmt`. -/
inductive Stmt
  | query (q : QueryAst)
  | insert
  | update
  | delete
  | drop
  | truncate
  | alterTable
  | alterIndex
  | createTable
  | createIndex
  | createView
  | createSchema
  | createDatabase
  | otherStmt
deriving DecidableEq, Repr

/-- `classify_statement` from `dendron-core/src/query.rs`. -/
def classifyStatement : Stmt → QueryType
  | .query _ => .select
  | .insert => .insert
  | .update => .update
  | .delete => .delete
  | .drop => .drop
  | .truncate => .truncate
  | .alterTable | .alterIndex => .alter
  | .createTable | .createIndex | .createView | .createSchema
  | .createDatabase => .create
  | .otherStmt => .other

/-- Result of running the dialect cascade
(`PostgreSqlDialect, SQLiteDialect, GenericDialect`) of `sqlparser` on one
input: one entry per dialect, `none` for a parse error, `some stmts` for a
successful parse. -/
abbrev DialectResults := List (Option (List Stmt))

/-! ## Lexical fallback and parser-based classification -/

/-- The `first_word` computation of `analyze_query_fallback`
(`dendron-core/src/query.rs`): trim the input, take the first line whose
trimmed text does not start with `--`, take its first whitespace-separated
word not starting with `--`, and uppercase it. -/
def fallbackFirstWord (sql : String) : Option (List Char) :=
  ((((rustLines (rustTrim sql.data)).find?
        (fun line => ! ("--".data.isPrefixOf (rustTrim line)))).bind
      (fun line =>
        (rustSplitWhitespace line).find?
          (fun w => ! ("--".data.isPrefixOf w)))).map
    rustToUppercase)

/-- The keyword table of the `match first_word.as_deref()` in
`analyze_query_fallback`. -/
def keywordToType (w : List Char) : QueryType :=
  if w = "SELECT".data || w = "WITH".data then .select
  else if w = "INSERT".data then .insert
  else if w = "UPDATE".data then .update
  else if w = "DELETE".data then .delete
  else if w = "DROP".data then .drop
  else if w = "TRUNCATE".data then .truncate
  else if w = "ALTER".data then .alter
  else if w = "CREATE".data then .create
  else .other

/-- `analyze_query_fallback` from `dendron-core/src/query.rs`. -/
def analyzeQueryFallback (sql : String) : QueryType :=
  match fallbackFirstWord sql with
  | some w => keywordToType w
  | none => .other

/-- `analyze_query` from `dendron-core/src/query.rs`: walk the dialect
cascade; the first dialect that parses successfully *and* yields a first
statement determines the classification (an `Ok` with an empty statement
list falls through to the next dialect); if no dialect does, use the
lexical fallback. -/
def analyzeQuery (dr : DialectResults) (sql : String) : QueryType :=
  match dr with
  | [] => analyzeQueryFallback sql
  | some (stmt :: _) :: _ => classifyStatement stmt
  | some [] :: rest => analyzeQuery rest sql
  | none :: rest => analyzeQuery rest sql

/-- `has_top_level_order_by` from `dendron-core/src/query.rs`: the first
dialect that parses successfully answers (first statement a query → its
`order_by.is_some()`; anything else, including an empty statement list →
`true`); if every dialect fails, `true`. -/
def hasTopLevelOrderBy (dr : DialectResults) : Bool :=
  match dr with
  | [] => true
  | some stmts :: _ =>
    match stmts.head? with
    | some (Stmt.query q) => q.order_by.isSome
    | _ => true
  | none :: rest => hasTopLevelOrderBy rest

/-- `analyze_multi_statement` from `dendron-core/src/query.rs`: the first
dialect that parses successfully yields the classification of every
statement (an `Ok` with an empty list yields `[]`); if every dialect
fails, a one-element list from the lexical fallback. -/
def analyzeMultiStatement (dr : DialectResults) (sql : String) : List QueryType :=
  match dr with
  | [] => [analyzeQueryFallback sql]
  | some stmts :: _ => stmts.map classifyStatement
  | none :: rest => analyzeMultiStatement rest sql

/-- The severity if-chain of `most_dangerous_type`
(`dendron-core/src/query.rs`), factored over the classified list. -/
def mostDangerousOfTypes (types : List QueryType) : QueryType :=
  if types.any (fun t => t = QueryType.drop) then .drop
  else if types.any (fun t => t = QueryType.truncate) then .truncate
  else if types.any (fun t => t = QueryType.delete) then .delete
  else if types.any (fun t => t = QueryType.update) then .update
  else if types.any (fun t => t = QueryType.alter) then .alter
  else if types.any (fun t => t = QueryType.insert) then .insert
  else if types.any (fun t => t = QueryType.create) then .create
  else if types.any (fun t => t = QueryType.select) then .select
  else .other

/-- `most_dangerous_type` from `dendron-core/src/query.rs`. -/
def mostDangerousType (dr : DialectResults) (sql : String) : QueryType :=
  mostDangerousOfTypes (analyzeMultiStatement dr sql)

/-- `QuerySafetyCheck` from `dendron-core/src/query.rs`. -/
structure QuerySafetyCheck where
  query_type : QueryType
  is_dangerous_connection : Bool
  connection_name : String
  requires_confirmation : Bool
deriving DecidableEq, Repr

/-- `QuerySafetyCheck::check` from `dendron-core/src/query.rs`. -/
def QuerySafetyCheck.check (dr : DialectResults) (sql : String)
    (connection_name : String) (is_dangerous_connection : Bool) :
    QuerySafetyCheck :=
  let query_type := mostDangerousType dr sql
  { query_type := query_type
    is_dangerous_connection := is_dangerous_connection
    connection_name := connection_name
    requires_confirmation :=
      query_type.is_destructive && is_dangerous_connection }

/-! ## Editable-result detection (dendron-core/src/query.rs) -/

/-- `EditableInfo` from `dendron-core/src/query.rs`. -/
structure EditableInfo where
  editable : Bool
  schema : Option String
  table : Option String
  reason : Option String
deriving DecidableEq, Repr

/-- `EditableInfo::not_editable`. -/
def EditableInfo.not_editable (reason : String) : EditableInfo :=
  { editable := false, schema := none, table := none, reason := some reason }

/-- The `GROUP BY` match of `check_query_editable`:
`Expressions(exprs, _)` with a non-empty list → `GROUP BY`, `All(_)` →
`GROUP BY ALL`, otherwise no disqualification. -/
def groupByReason : GroupByExpr → Option String
  | .expressions exprs =>
    if exprs.isEmpty then none else some "Query uses GROUP BY"
  | .all => some "Query uses GROUP BY ALL"

/-- The identifier-count match of `check_query_editable` on the dotted
`ObjectName` parts: `1` part → `(None, table)`, `2` → `(schema, table)`,
`n ≥ 3` → `(idents[n-2], idents[n-1])`, `0` → not parseable. -/
def identsToSchemaTable (idents : List String) : Option (Option String × String) :=
  match idents with
  | [t] => some (none, t)
  | [s, t] => some (some s, t)
  | _ =>
    if idents.length ≥ 3 then
      match idents.getLast?, idents.dropLast.getLast? with
      | some t, some s => some (some s, t)
      | _, _ => none
    else none

/-- `check_query_editable` from `dendron-core/src/query.rs`, with the
disqualification checks in source order. -/
def check_query_editable (query : QueryAst) : EditableInfo :=
  if query.with_.isSome then EditableInfo.not_editable "Query uses CTEs"
  else
    match query.body with
    | .otherSet => EditableInfo.not_editable "Query uses set operations"
    | .select s =>
      if s.distinct.isSome then EditableInfo.not_editable "Query uses DISTINCT"
      else
        match groupByReason s.group_by with
        | some r => EditableInfo.not_editable r
        | none =>
          if s.having.isSome then EditableInfo.not_editable "Query uses HAVING"
          else
            match s.from_ with
            | [twj] =>
              if !twj.joins.isEmpty then EditableInfo.not_editable "Query uses JOINs"
              else
                match twj.relation with
                | .otherFactor =>
                  EditableInfo.not_editable "FROM clause is not a simple table"
                | .table name args =>
                  if args.isSome then
                    EditableInfo.not_editable "FROM clause is a table-valued function"
                  else
                    match identsToSchemaTable name with
                    | none => EditableInfo.not_editable "Could not parse table name"
                    | some (schema, table) =>
                      { editable := true, schema := schema,
                        table := some table, reason := none }
            | _ =>
              EditableInfo.not_editable "Query must have exactly one table in FROM"

/-- `extract_source_table` from `dendron-core/src/query.rs`: the first
dialect that parses successfully answers (one statement required, and it
must be a query); if every dialect fails, `Could not parse SQL`. -/
def extractSourceTable (dr : DialectResults) : EditableInfo :=
  match dr with
  | [] => EditableInfo.not_editable "Could not parse SQL"
  | some stmts :: _ =>
    match stmts with
    | [Stmt.query q] => check_query_editable q
    | [_] => EditableInfo.not_editable "Not a SELECT query"
    | _ => EditableInfo.not_editable "Multiple statements"
  | none :: rest => extractSourceTable rest

/-- `quote_ident` from `dendron-core/src/query.rs`: wrap in double quotes,
doubling embedded double quotes. -/
def quote_ident (name : String) : String :=
  ⟨'"' :: (name.data.flatMap (fun c => if c = '"' then ['"', '"'] else [c])) ++ ['"']⟩

/-! ## `execute_query` command wrapping (src-tauri/src/commands/queries.rs) -/

/-- The row cap. `src-tauri/src/db/postgres.rs` defines
`DEFAULT_ROW_LIMIT = 1000`; the command layer imports the equally named
constant of `dendron_core::db::postgres`, whose file is absent from the
sources at hand. Modelled from the spec: "Default row cap: 1000 rows per
query result". -/
def DEFAULT_ROW_LIMIT : Nat := 1000

/-- The `sql.trim_end().trim_end_matches(';')` preprocessing of the
`execute_query` command. -/
def stripTrailingSemicolons (sql : String) : String :=
  ⟨rustTrimEndMatchesChar ';' (rustTrimEnd sql.data)⟩

/-- The `is_select` flag of the `execute_query` command
(`src-tauri/src/commands/queries.rs`): the stripped statement classifies
as `Select`.  `dr` is the dialect-cascade result for the *stripped*
statement. -/
def executeQueryIsSelect (dr : DialectResults) (sql : String) : Bool :=
  analyzeQuery dr (stripTrailingSemicolons sql) = QueryType.select

/-- The `has_order_by` flag of the `execute_query` command:
`has_top_level_order_by` of the stripped statement when it is a SELECT,
`true` otherwise. -/
def executeQueryHasOrderBy (dr : DialectResults) (sql : String) : Bool :=
  if executeQueryIsSelect dr sql then hasTopLevelOrderBy dr else true

/-- The `effective_sql` computation of the `execute_query` command: a
SELECT is wrapped as
`SELECT * FROM (<stmt>) q LIMIT <cap+1> OFFSET <offset>`, any other
statement is passed through (semicolon-stripped in both cases). -/
def executeQueryEffectiveSql (dr : DialectResults) (sql : String) (offset : Nat) :
    String :=
  let s := stripTrailingSemicolons sql
  if executeQueryIsSelect dr sql then
    "SELECT * FROM (" ++ s ++ ") q LIMIT " ++ toString (DEFAULT_ROW_LIMIT + 1)
      ++ " OFFSET " ++ toString offset
  else s

/-! ## `TabContext` (src-tauri/src/state.rs)

`Arc<DatabaseConnection>` is modelled as an opaque numeric handle, and a
`CancellationToken` by a numeric identity.  `CancellationToken::new()`
yields a token distinct from every token previously stored on the tab;
since `query_id` strictly increases over the tab's lifetime and a fresh
token is created exactly when `query_id` is bumped, the post-increment
`query_id` serves as that fresh identity.
-/

/-- `TabContext` from `src-tauri/src/state.rs`. -/
structure TabContext where
  connection : Nat
  connection_name : String
  is_dangerous : Bool
  cancel_token : Option Nat
  query_id : Nat
deriving DecidableEq, Repr

/-- `TabContext::new`. -/
def TabContext.new (connection : Nat) (connection_name : String)
    (is_dangerous : Bool) : TabContext :=
  { connection := connection, connection_name := connection_name,
    is_dangerous := is_dangerous, cancel_token := none, query_id := 0 }

/-- `TabContext::start_query`: bump the generation, create a fresh token,
store it, return `(token, query_id)`. -/
def TabContext.start_query (c : TabContext) : TabContext × Nat × Nat :=
  let qid := c.query_id + 1
  let token := qid
  ({ c with query_id := qid, cancel_token := some token }, token, qid)

/-- `TabContext::finish_query`: clear the token slot only when the
generation still matches. -/
def TabContext.finish_query (c : TabContext) (query_id : Nat) : TabContext :=
  if c.query_id = query_id then { c with cancel_token := none } else c

/-- `TabContext::cancel_current_query`: take the stored token (to be
cancelled by the caller side effect) without bumping the generation.
Returns the taken token alongside the new state. -/
def TabContext.cancel_current_query (c : TabContext) : TabContext × Option Nat :=
  ({ c with cancel_token := none }, c.cancel_token)

/-- `TabContext::swap_connection`: cancel any in-flight query, bump the
generation, install the new connection triple.  Returns the token taken by
the embedded `cancel_current_query`. -/
def TabContext.swap_connection (c : TabContext) (new_conn : Nat)
    (connection_name : String) (is_dangerous : Bool) : TabContext × Option Nat :=
  let (c1, cancelled) := c.cancel_current_query
  ({ c1 with
      query_id := c1.query_id + 1
      connection := new_conn
      connection_name := connection_name
      is_dangerous := is_dangerous },
   cancelled)

/-! ## Known-hosts trust-on-first-use (dendron-core/src/db/ssh.rs)

The `known_hosts` file is modelled as its list of lines (a missing file is
the empty list); `check_known_hosts` returns the acceptance verdict
together with the file content after the call (the source appends one line
when the host is unknown and otherwise leaves the file untouched).
The server key is passed in its OpenSSH textual form
`"<key-type> <base64-key> [comment]"` exactly as produced by
`to_openssh()`.
-/

/-- `AppError::SshHostKeyMismatch` (the only error variant reachable from
the host-comparison logic of `check_known_hosts`). -/
inductive SshCheckError
  | hostKeyMismatch (host : String)
deriving DecidableEq, Repr

/-- Find the first occurrence of `sep`: returns the prefix before it and,
when found, the remainder after it. -/
def breakAtChar (sep : Char) : List Char → List Char × Option (List Char)
  | [] => ([], none)
  | c :: cs =>
    if c = sep then ([], some cs)
    else
      let (pre, post) := breakAtChar sep cs
      (c :: pre, post)

/-- Rust `str::splitn(n, sep)` with a character separator: at most `n`
pieces, the last piece keeping the rest of the string verbatim. -/
def rustSplitnChar : Nat → Char → List Char → List (List Char)
  | 0, _, _ => []
  | 1, _, l => [l]
  | n + 2, sep, l =>
    match breakAtChar sep l with
    | (pre, none) => [pre]
    | (pre, some post) => pre :: rustSplitnChar (n + 1) sep post

/-- The three `parts.next().unwrap_or("")` reads after an
`splitn(3, ' ')`. -/
def splitnThreeFields (l : List Char) : List Char × List Char × List Char :=
  match rustSplitnChar 3 ' ' l with
  | [] => ([], [], [])
  | [a] => (a, [], [])
  | [a, b] => (a, b, [])
  | a :: b :: c :: _ => (a, b, c)

/-- The line loop of `check_known_hosts`: skip blank and `#` lines, find
the first line whose first field equals the host string, and compare key
type and key.  `none` means no line matched the host. -/
def checkKnownHostsLoop (host_str : String) (key_type key_b64 : List Char) :
    List String → Option (Except SshCheckError Bool)
  | [] => none
  | line :: rest =>
    if (rustTrim line.data).isEmpty || (rustTrim line.data).head? = some '#' then
      checkKnownHostsLoop host_str key_type key_b64 rest
    else if (splitnThreeFields (rustTrim line.data)).1 ≠ host_str.data then
      checkKnownHostsLoop host_str key_type key_b64 rest
    else if (splitnThreeFields (rustTrim line.data)).2.1 = key_type ∧
        (splitnThreeFields (rustTrim line.data)).2.2 = key_b64 then
      some (.ok true)
    else
      some (.error (.hostKeyMismatch host_str))

/-- `check_known_hosts` from `dendron-core/src/db/ssh.rs` (AcceptNew
policy), over the file modelled as a line list. -/
def check_known_hosts (lines : List String) (host_str : String)
    (openssh : String) : Except SshCheckError (Bool × List String) :=
  match checkKnownHostsLoop host_str (splitnThreeFields openssh.data).1
      (splitnThreeFields openssh.data).2.1 lines with
  | some (.ok b) => .ok (b, lines)
  | some (.error e) => .error e
  | none =>
    .ok (true, lines ++ [host_str ++ " " ++ ⟨(splitnThreeFields openssh.data).1⟩
      ++ " " ++ ⟨(splitnThreeFields openssh.data).2.1⟩])

/-! ## `update_cell` (dendron-core/src/db/connection.rs)

The statement issued to sqlx is modelled as the SQL text plus the ordered
bind list (`query.bind(...)` calls): the new value first (`None` binds SQL
NULL), then the primary-key values.  Values never enter the SQL text.
-/

/-- The two backends of `DatabaseConnection`. -/
inductive Backend
  | postgres
  | sqlite
deriving DecidableEq, Repr

/-- A built parameterized statement: SQL text plus ordered bind values. -/
structure BuiltUpdate where
  sql : String
  binds : List (Option String)
deriving DecidableEq, Repr

/-- `DatabaseConnection::update_cell` from
`dendron-core/src/db/connection.rs`, up to the point where the built
statement is handed to sqlx. -/
def update_cell (backend : Backend) (schema table column : String)
    (new_value : Option String) (pk_columns : List (String × String)) :
    Except String BuiltUpdate :=
  if pk_columns.isEmpty then .error "No primary key columns provided"
  else
    match backend with
    | .postgres =>
      let set_clause := quote_ident column ++ " = $1"
      let where_clause := String.intercalate " AND "
        (pk_columns.enum.map
          (fun p => quote_ident p.2.1 ++ " = $" ++ toString (p.1 + 2)))
      let sql := "UPDATE " ++ quote_ident schema ++ "." ++ quote_ident table
        ++ " SET " ++ set_clause ++ " WHERE " ++ where_clause
      .ok { sql := sql,
            binds := new_value :: pk_columns.map (fun p => some p.2) }
    | .sqlite =>
      let set_clause := quote_ident column ++ " = ?"
      let where_clause := String.intercalate " AND "
        (pk_columns.map (fun p => quote_ident p.1 ++ " = ?"))
      let sql := "UPDATE " ++ quote_ident schema ++ "." ++ quote_ident table
        ++ " SET " ++ set_clause ++ " WHERE " ++ where_clause
      .ok { sql := sql,
            binds := new_value :: pk_columns.map (fun p => some p.2) }

/-! ## Query execution result shaping (src-tauri/src/db/postgres.rs)

Both backend arms of `DatabaseConnection::execute_query` share the same
row-collection and result-shaping structure; only the per-cell decoder
differs.  A backend row is its per-row column metadata (sqlx
`row.columns()`: name and type name per column) plus opaque wire cells;
the composite `try_get_raw(i).ok().and_then(decode …)` chain — which runs
against sqlx wire values external to the repository — is a parameter
`decodeCell`, and the `unwrap_or_else(|| format!("<{ty}>"))` placeholder
is kept explicit.  The shape claims proved below hold for every decoder.
-/

/-- One row as delivered by sqlx: column metadata plus wire cells. -/
structure BackendRow (Cell : Type) where
  meta : List (String × String)
  cells : List Cell

/-- `QueryResult` from `src-tauri/src/db/postgres.rs`. -/
structure QueryResult where
  columns : List String
  column_types : List String
  rows : List (List String)
  row_count : Nat
  execution_time_ms : Nat
  truncated : Bool
deriving DecidableEq, Repr

/-- The per-row loop body
`(0..row.columns().len()).map(|i| … unwrap_or_else placeholder)`. -/
def decodeRow {Cell : Type} (decodeCell : String → Cell → Option String)
    (row : BackendRow Cell) : List String :=
  (List.range row.meta.length).map (fun i =>
    let type_name := ((row.meta.get? i).map Prod.snd).getD ""
    (((row.cells.get? i).bind (decodeCell type_name))).getD
      ("<" ++ type_name.toLower ++ ">"))

/-- The `collected` vector after the streaming loop of `execute_query`:
`while let Some(row) = … { collected.push(row); if collected.len() >
DEFAULT_ROW_LIMIT { break; } }` retains the first `row_cap + 1` backend
rows. -/
def collectedRows {Cell : Type} (backendRows : List (BackendRow Cell)) :
    List (BackendRow Cell) :=
  backendRows.take (DEFAULT_ROW_LIMIT + 1)

/-- `let truncated = collected.len() > DEFAULT_ROW_LIMIT`. -/
def truncatedFlag {Cell : Type} (backendRows : List (BackendRow Cell)) : Bool :=
  (collectedRows backendRows).length > DEFAULT_ROW_LIMIT

/-- `if truncated { collected.pop(); }`: the rows retained for decoding. -/
def keptRows {Cell : Type} (backendRows : List (BackendRow Cell)) :
    List (BackendRow Cell) :=
  if truncatedFlag backendRows then (collectedRows backendRows).dropLast
  else collectedRows backendRows

/-- `collected.first()`'s column metadata (empty result → no columns). -/
def firstRowMeta {Cell : Type} (backendRows : List (BackendRow Cell)) :
    List (String × String) :=
  match (keptRows backendRows).head? with
  | some row => row.meta
  | none => []

/-- `DatabaseConnection::execute_query` from
`src-tauri/src/db/postgres.rs`: stream rows until `row_cap + 1` collected,
mark truncation and drop the extra row, take column names/types from the
first retained row (`unzip` of the per-column name/type pairs), decode
every retained row. -/
def executeQueryResult {Cell : Type}
    (decodeCell : String → Cell → Option String)
    (backendRows : List (BackendRow Cell)) (execution_time_ms : Nat) :
    QueryResult :=
  { columns := (firstRowMeta backendRows).map Prod.fst
    column_types := (firstRowMeta backendRows).map Prod.snd
    rows := (keptRows backendRows).map (decodeRow decodeCell)
    row_count := ((keptRows backendRows).map (decodeRow decodeCell)).length
    execution_time_ms := execution_time_ms
    truncated := truncatedFlag backendRows }

/-! ## Base64 (the `base64` crate's `general_purpose::STANDARD` engine)

`EncryptedPassword` stores ciphertext and nonce base64-encoded.  The
standard alphabet with `=` padding is implemented here over byte lists
(bytes as `Nat < 256`); encoded text is a character list.
-/

/-- The standard base64 alphabet. -/
def b64Alphabet : List Char :=
  "ABCDEFGHIJKLMNOPQRSTUVWXYZabcdefghijklmnopqrstuvwxyz0123456789+/".data

/-- Character for a sextet value. -/
def b64char (n : Nat) : Char :=
  (b64Alphabet.get? n).getD '?'

/-- Sextet value of an alphabet character (`none` for non-alphabet input). -/
def b64index (c : Char) : Option Nat :=
  b64Alphabet.indexOf? c

/-- Standard base64 encoding with padding, three input bytes per four
output characters. -/
def b64encodeChars : List Nat → List Char
  | [] => []
  | [b1] => [b64char (b1 / 4), b64char (b1 % 4 * 16), '=', '=']
  | [b1, b2] =>
    [b64char (b1 / 4), b64char (b1 % 4 * 16 + b2 / 16), b64char (b2 % 16 * 4), '=']
  | b1 :: b2 :: b3 :: rest =>
    b64char (b1 / 4) :: b64char (b1 % 4 * 16 + b2 / 16)
      :: b64char (b2 % 16 * 4 + b3 / 64) :: b64char (b3 % 64)
      :: b64encodeChars rest

/-- Standard base64 decoding: four characters per block, padding only in a
final block. -/
def b64decodeChars : List Char → Option (List Nat)
  | [] => some []
  | c1 :: c2 :: c3 :: c4 :: rest =>
    match b64index c1, b64index c2 with
    | some s1, some s2 =>
      if c3 = '=' then
        if c4 = '=' ∧ rest = [] then some [s1 * 4 + s2 / 16] else none
      else
        match b64index c3 with
        | some s3 =>
          if c4 = '=' then
            if rest = [] then some [s1 * 4 + s2 / 16, s2 % 16 * 16 + s3 / 4]
            else none
          else
            match b64index c4 with
            | some s4 =>
              (b64decodeChars rest).map
                (fun t => (s1 * 4 + s2 / 16) :: (s2 % 16 * 16 + s3 / 4)
                  :: (s3 % 4 * 64 + s4) :: t)
            | none => none
        | none => none
    | _, _ => none
  | _ => none

/-! ## `EncryptedPassword` (src-tauri/src/security/encryption.rs)

The AES-256-GCM primitive of the `ring` crate and the UTF-8 validation of
`String::from_utf8` are external to the repository; they are parameters
(`seal` producing ciphertext-plus-tag, `openAead` its partial inverse,
`isValidUtf8`).  `get_or_create_key` persists one 32-byte key and returns
it on every later call, so one `key` value feeds both directions.  A
string is represented by its UTF-8 byte list.
-/

/-- `NONCE_LEN` from `src-tauri/src/security/encryption.rs`. -/
def NONCE_LEN : Nat := 12

/-- `EncryptedPassword` from `src-tauri/src/security/encryption.rs`
(base64 text modelled as character lists). -/
structure EncryptedPassword where
  encrypted_base64 : List Char
  nonce_base64 : List Char
deriving DecidableEq

/-- The reachable `AppError` variants of decrypt. -/
inductive CryptoError
  | decryptionFailed (msg : String)
deriving DecidableEq, Repr

/-- `EncryptedPassword::encrypt`: seal the plaintext bytes in place
(appending the tag), then base64-encode ciphertext and nonce. -/
def EncryptedPassword.encrypt
    (sealAead : List Nat → List Nat → List Nat → List Nat)
    (key nonce plaintext : List Nat) : EncryptedPassword :=
  { encrypted_base64 := b64encodeChars (sealAead key nonce plaintext)
    nonce_base64 := b64encodeChars nonce }

/-- `EncryptedPassword::decrypt`: base64-decode both fields, insist on a
12-byte nonce, open the ciphertext, validate UTF-8. -/
def EncryptedPassword.decrypt
    (openAead : List Nat → List Nat → List Nat → Option (List Nat))
    (isValidUtf8 : List Nat → Bool)
    (key : List Nat) (ep : EncryptedPassword) :
    Except CryptoError (List Nat) :=
  match b64decodeChars ep.encrypted_base64 with
  | none => .error (.decryptionFailed "Invalid base64 encrypted data")
  | some encrypted_data =>
    match b64decodeChars ep.nonce_base64 with
    | none => .error (.decryptionFailed "Invalid base64 nonce")
    | some nonce_bytes =>
      if nonce_bytes.length ≠ NONCE_LEN then
        .error (.decryptionFailed "Invalid nonce length")
      else
        match openAead key nonce_bytes encrypted_data with
        | none => .error (.decryptionFailed "Decryption operation failed")
        | some plaintext =>
          if isValidUtf8 plaintext then .ok plaintext
          else .error (.decryptionFailed "Decrypted data is not valid UTF-8")

/-! ## Specification-side helper definitions -/

/-- Severity rank of the fixed order
Drop > Truncate > Delete > Update > Alter > Insert > Create > Select > Other
that the spec asserts for `most_dangerous_type`. -/
def severity : QueryType → Nat
  | .drop => 8
  | .truncate => 7
  | .delete => 6
  | .update => 5
  | .alter => 4
  | .insert => 3
  | .create => 2
  | .select => 1
  | .other => 0

/-- The keyword table of `analyze_query_fallback`, read backwards: the
uppercased first words that the fallback maps to a given `QueryType`. -/
def keywordMatches : QueryType → List Char → Bool
  | .select, w => w = "SELECT".data || w = "WITH".data
  | .insert, w => w = "INSERT".data
  | .update, w => w = "UPDATE".data
  | .delete, w => w = "DELETE".data
  | .drop, w => w = "DROP".data
  | .truncate, w => w = "TRUNCATE".data
  | .alter, w => w = "ALTER".data
  | .create, w => w = "CREATE".data
  | .other, _ => false

/-- An uppercased word recognized by `analyze_query_fallback`. -/
def recognizedKeyword (w : List Char) : Bool :=
  w = "SELECT".data || w = "WITH".data || w = "INSERT".data
    || w = "UPDATE".data || w = "DELETE".data || w = "DROP".data
    || w = "TRUNCATE".data || w = "ALTER".data || w = "CREATE".data

/-- A `known_hosts` line that `check_known_hosts` compares against the
host: not blank, not a comment, first field equal to the host string. -/
def lineMatchesHost (host : String) (line : String) : Bool :=
  !((rustTrim line.data).isEmpty || (rustTrim line.data).head? = some '#')
    && (splitnThreeFields (rustTrim line.data)).1 = host.data

/-! ## Concrete parse instances

The statement lists below are what `sqlparser` produces on the concrete
inputs named in the theorems (all three dialects parse these simple
statements identically, so each cascade carries three copies).
-/

/-- AST of `SELECT a FROM t ORDER BY a`: a plain select over table `t`
with a top-level `ORDER BY`. -/
def qOrderBy : QueryAst :=
  { with_ := none
    body := .select
      { distinct := none, group_by := .expressions [], having := none,
        from_ := [{ relation := .table ["t"] none, joins := [] }] }
    order_by := some () }

/-- Dialect cascade for `SELECT a FROM t ORDER BY a`. -/
def drOrderBy : DialectResults :=
  [some [.query qOrderBy], some [.query qOrderBy], some [.query qOrderBy]]

/-- AST of `SELECT 1` (also of `/* c */ SELECT 1`: the tokenizer of
`sqlparser` skips block comments): a select with an empty `FROM` list. -/
def qSelectOne : QueryAst :=
  { with_ := none
    body := .select
      { distinct := none, group_by := .expressions [], having := none,
        from_ := [] }
    order_by := none }

/-- Dialect cascade for `/* c */ SELECT 1`. -/
def drBlockComment : DialectResults :=
  [some [.query qSelectOne], some [.query qSelectOne], some [.query qSelectOne]]

/-- Dialect cascade for `INSERT INTO t VALUES (1)`. -/
def drInsertOne : DialectResults :=
  [some [.insert], some [.insert], some [.insert]]

/-- Dialect cascade for the empty and the all-whitespace input:
`Parser::parse_sql` tokenizes to nothing and returns `Ok(vec![])` under
every dialect. -/
def drEmptyOk : DialectResults :=
  [some [], some [], some []]

/-- Dialect cascade for input no grammar accepts (e.g. `foo bar`). -/
def drAllFail : DialectResults :=
  [none, none, none]

/-- AST of `SELECT * FROM users`. -/
def qUsers : QueryAst :=
  { with_ := none
    body := .select
      { distinct := none, group_by := .expressions [], having := none,
        from_ := [{ relation := .table ["users"] none, joins := [] }] }
    order_by := none }

/-- Dialect cascade for `SELECT * FROM users`. -/
def drUsers : DialectResults :=
  [some [.query qUsers], some [.query qUsers], some [.query qUsers]]

/-- AST of
`SELECT * FROM public.users u JOIN orders o ON u.id = o.user_id`:
one `FROM` item carrying one join. -/
def qJoin : QueryAst :=
  { with_ := none
    body := .select
      { distinct := none, group_by := .expressions [], having := none,
        from_ := [{ relation := .table ["public", "users"] none,
                    joins := [()] }] }
    order_by := none }

/-- Dialect cascade for the join query above. -/
def drJoin : DialectResults :=
  [some [.query qJoin], some [.query qJoin], some [.query qJoin]]

/-- AST of `SELECT a FROM t GROUP BY a`: one `GROUP BY` expression. -/
def qGroupBy : QueryAst :=
  { with_ := none
    body := .select
      { distinct := none, group_by := .expressions [()], having := none,
        from_ := [{ relation := .table ["t"] none, joins := [] }] }
    order_by := none }

/-- Dialect cascade for `SELECT a FROM t GROUP BY a`. -/
def drGroupBy : DialectResults :=
  [some [.query qGroupBy], some [.query qGroupBy], some [.query qGroupBy]]

/-- Dialect cascade for `SELECT * FROM users; DROP TABLE users; INSERT
INTO t VALUES (1)`: a batch with a `DROP` in the middle. -/
def drDropBatch : DialectResults :=
  [some [.query qUsers, .drop, .insert],
   some [.query qUsers, .drop, .insert],
   some [.query qUsers, .drop, .insert]]

/-! # Theorems -/

/-- Membership reading of the `iter().any(|t| *t == X)` tests in
`most_dangerous_type`. -/
theorem anyEq_iff_mem (ts : List QueryType) (x : QueryType) :
    (ts.any (fun t => t = x) = true) ↔ x ∈ ts := by
  induction ts with
  | nil => simp
  | cons h t ih =>
    simp only [List.any_cons, Bool.or_eq_true, decide_eq_true_eq, ih,
      List.mem_cons]
    exact ⟨fun p => p.elim (fun e => Or.inl e.symm) Or.inr,
      fun p => p.elim (fun e => Or.inl e.symm) Or.inr⟩

/-- Claim C2: `finish_query(g)` mutates nothing (neither the stored
cancellation handle nor any other field) when `g` differs from the tab's
current generation.  In the two-query scenario — query A started
(generation `gA`), then query B started on the same tab (generation
`gB > gA`) — `finish_query(gA)` leaves the `TabContext`, including B's
stored token, unchanged; only `finish_query(gB)` clears the stored
handle, and it changes nothing else. -/
theorem finish_query_generation_guard (c : TabContext) (g : Nat)
    (h : g ≠ c.query_id) :
    c.finish_query g = c ∧
    (∀ cA tokA gA cB tokB gB,
      c.start_query = (cA, tokA, gA) →
      cA.start_query = (cB, tokB, gB) →
      gA < gB ∧
      cB.finish_query gA = cB ∧
      cB.cancel_token = some tokB ∧
      cB.finish_query gB = { cB with cancel_token := none }) := by
  constructor
  · unfold TabContext.finish_query
    rw [if_neg (fun he => h he.symm)]
  · intro cA tokA gA cB tokB gB h1 h2
    unfold TabContext.start_query at h1 h2
    simp only [Prod.mk.injEq] at h1 h2
    obtain ⟨hcA, htA, hgA⟩ := h1
    obtain ⟨hcB, htB, hgB⟩ := h2
    have hAq : cA.query_id = c.query_id + 1 := by rw [← hcA]
    have hBq : cB.query_id = cA.query_id + 1 := by rw [← hcB]
    have hBt : cB.cancel_token = some (cA.query_id + 1) := by rw [← hcB]
    refine ⟨by omega, ?_, ?_, ?_⟩
    · unfold TabContext.finish_query
      rw [if_neg (by omega)]
    · rw [hBt, htB]
    · unfold TabContext.finish_query
      rw [if_pos (by omega)]

/-- Claim C2 witness: the generation-guard theorem applied to a freshly
created tab and a stale generation. -/
theorem finish_query_generation_guard_witness :
    (TabContext.new 0 "db" false).finish_query 7 = TabContext.new 0 "db" false :=
  (finish_query_generation_guard (TabContext.new 0 "db" false) 7 (by decide)).1

/-- Claim C1 counterexample: `SELECT a FROM t ORDER BY a` has a top-level
`ORDER BY` (and the command computes `has_order_by = true` for it), yet
`execute_query` still wraps it in the pagination subquery — the code has
no "executed unwrapped" branch for ordered SELECTs. -/
theorem ordered_select_still_wrapped :
    executeQueryHasOrderBy drOrderBy "SELECT a FROM t ORDER BY a" = true ∧
    executeQueryEffectiveSql drOrderBy "SELECT a FROM t ORDER BY a" 0 =
      "SELECT * FROM (SELECT a FROM t ORDER BY a) q LIMIT 1001 OFFSET 0" ∧
    executeQueryEffectiveSql drOrderBy "SELECT a FROM t ORDER BY a" 0 ≠
      "SELECT a FROM t ORDER BY a" := by
  refine ⟨by decide, by decide, by decide⟩

/-- Claim C1 amended: the statement (trailing whitespace and semicolons
stripped) is wrapped as `SELECT * FROM (<stmt>) q LIMIT cap+1 OFFSET
offset` exactly when it classifies as a SELECT, independently of
`has_top_level_order_by` (which is computed and forwarded but does not
gate wrapping); every non-SELECT statement is executed unwrapped. -/
theorem effective_sql_wraps_iff_select (dr : DialectResults) (sql : String)
    (offset : Nat) :
    (executeQueryIsSelect dr sql = true →
      executeQueryEffectiveSql dr sql offset =
        "SELECT * FROM (" ++ stripTrailingSemicolons sql ++ ") q LIMIT "
          ++ toString (DEFAULT_ROW_LIMIT + 1) ++ " OFFSET " ++ toString offset) ∧
    (executeQueryIsSelect dr sql = false →
      executeQueryEffectiveSql dr sql offset = stripTrailingSemicolons sql) := by
  unfold executeQueryEffectiveSql
  constructor <;> intro h <;> simp [h]

/-- Claim C1 amended witness: a SELECT with trailing semicolon is wrapped
with the requested offset. -/
theorem effective_sql_wraps_iff_select_witness :
    executeQueryIsSelect drUsers "SELECT * FROM users;" = true ∧
    executeQueryEffectiveSql drUsers "SELECT * FROM users;" 10 =
      "SELECT * FROM (" ++ stripTrailingSemicolons "SELECT * FROM users;"
        ++ ") q LIMIT " ++ toString (DEFAULT_ROW_LIMIT + 1) ++ " OFFSET "
        ++ toString 10 :=
  ⟨by decide,
   (effective_sql_wraps_iff_select drUsers "SELECT * FROM users;" 10).1
     (by decide)⟩

/-- Claim C8 counterexample: `/* c */ SELECT 1` parses under every dialect
(block comments are skipped by the tokenizer), the parser path classifies
it `Select` — one of the eight types named by the claim — but the lexical
fallback sees first word `/*` and returns `Other`: the two paths disagree
on a grammar-parseable single statement. -/
theorem block_comment_breaks_agreement :
    analyzeQuery drBlockComment "/* c */ SELECT 1" = QueryType.select ∧
    analyzeQueryFallback "/* c */ SELECT 1" = QueryType.other ∧
    analyzeQuery drBlockComment "/* c */ SELECT 1" ≠
      analyzeQueryFallback "/* c */ SELECT 1" := by
  refine ⟨rfl, by decide, by decide⟩

/-- Claim C8 amended: the parser path and the lexical fallback agree
whenever the first word the fallback extracts is a keyword for the
parser's classification (SELECT or WITH for `Select`, INSERT for
`Insert`, and so on) — agreement does not extend to every
grammar-parseable input, e.g. one starting with a block comment. -/
theorem parser_fallback_agree_on_leading_keyword (dr : DialectResults)
    (sql : String) (t : QueryType) (w : List Char)
    (hq : analyzeQuery dr sql = t)
    (hw : fallbackFirstWord sql = some w)
    (hk : keywordMatches t w = true) :
    analyzeQuery dr sql = analyzeQueryFallback sql := by
  rw [hq]
  unfold analyzeQueryFallback
  rw [hw]
  cases t with
  | select =>
    have h' : w = "SELECT".data ∨ w = "WITH".data := by
      simpa [keywordMatches] using hk
    rcases h' with h | h <;> subst h <;> decide
  | insert =>
    have h' : w = "INSERT".data := by simpa [keywordMatches] using hk
    subst h'; decide
  | update =>
    have h' : w = "UPDATE".data := by simpa [keywordMatches] using hk
    subst h'; decide
  | delete =>
    have h' : w = "DELETE".data := by simpa [keywordMatches] using hk
    subst h'; decide
  | drop =>
    have h' : w = "DROP".data := by simpa [keywordMatches] using hk
    subst h'; decide
  | truncate =>
    have h' : w = "TRUNCATE".data := by simpa [keywordMatches] using hk
    subst h'; decide
  | alter =>
    have h' : w = "ALTER".data := by simpa [keywordMatches] using hk
    subst h'; decide
  | create =>
    have h' : w = "CREATE".data := by simpa [keywordMatches] using hk
    subst h'; decide
  | other => simp [keywordMatches] at hk

/-- Claim C8 amended witness: both paths classify
`INSERT INTO t VALUES (1)` identically. -/
theorem parser_fallback_agree_witness :
    analyzeQuery drInsertOne "INSERT INTO t VALUES (1)" =
      analyzeQueryFallback "INSERT INTO t VALUES (1)" :=
  parser_fallback_agree_on_leading_keyword drInsertOne
    "INSERT INTO t VALUES (1)" .insert "INSERT".data rfl (by decide) (by decide)

/-- Helper: the fallback keyword table answers `Other` on an unrecognized
word. -/
theorem keywordToType_eq_other (w : List Char)
    (h : recognizedKeyword w = false) : keywordToType w = .other := by
  unfold keywordToType
  unfold recognizedKeyword at h
  split_ifs with h1 h2 h3 h4 h5 h6 h7 h8 <;> simp_all

/-- Helper: `analyze_query` falls through to the lexical fallback when no
dialect yields a nonempty statement list. -/
theorem analyzeQuery_eq_fallback (sql : String) :
    ∀ dr : DialectResults, (∀ r ∈ dr, r = none ∨ r = some []) →
      analyzeQuery dr sql = analyzeQueryFallback sql := by
  intro dr
  induction dr with
  | nil => intro _; rfl
  | cons r rest ih =>
    intro h
    rcases h r (List.mem_cons_self r rest) with h0 | h0 <;> subst h0
    · exact ih (fun x hx => h x (List.mem_cons_of_mem _ hx))
    · exact ih (fun x hx => h x (List.mem_cons_of_mem _ hx))

/-- Helper: `analyze_multi_statement` yields `[]` (empty successful
parse) or the one-element fallback list when no dialect yields a
nonempty statement list. -/
theorem analyzeMultiStatement_degenerate (sql : String) :
    ∀ dr : DialectResults, (∀ r ∈ dr, r = none ∨ r = some []) →
      analyzeMultiStatement dr sql = [] ∨
      analyzeMultiStatement dr sql = [analyzeQueryFallback sql] := by
  intro dr
  induction dr with
  | nil => intro _; exact Or.inr rfl
  | cons r rest ih =>
    intro h
    rcases h r (List.mem_cons_self r rest) with h0 | h0 <;> subst h0
    · exact ih (fun x hx => h x (List.mem_cons_of_mem _ hx))
    · exact Or.inl rfl

/-- Claim C10: on the empty string, on whitespace-only input (the dialect
cascade returns `Ok(vec![])` there) and on input whose non-comment
content has no recognized leading keyword, `analyze_query` and
`most_dangerous_type` return `Other`, and `QuerySafetyCheck::check`
consequently reports `requires_confirmation = false` for every
connection-danger flag. -/
theorem degenerate_input_is_other (dr : DialectResults)
    (sql name : String) (flag : Bool)
    (hdr : ∀ r ∈ dr, r = none ∨ r = some [])
    (hkw : ∀ w, fallbackFirstWord sql = some w → recognizedKeyword w = false) :
    analyzeQuery dr sql = QueryType.other ∧
    mostDangerousType dr sql = QueryType.other ∧
    (QuerySafetyCheck.check dr sql name flag).requires_confirmation = false := by
  have hfb : analyzeQueryFallback sql = QueryType.other := by
    unfold analyzeQueryFallback
    cases hfw : fallbackFirstWord sql with
    | none => rfl
    | some w => exact keywordToType_eq_other w (hkw w hfw)
  have h1 : analyzeQuery dr sql = QueryType.other := by
    rw [analyzeQuery_eq_fallback sql dr hdr, hfb]
  have h2 : mostDangerousType dr sql = QueryType.other := by
    unfold mostDangerousType
    rcases analyzeMultiStatement_degenerate sql dr hdr with h | h
    · rw [h]; decide
    · rw [h, hfb]; decide
  refine ⟨h1, h2, ?_⟩
  have hproj : (QuerySafetyCheck.check dr sql name flag).requires_confirmation =
      ((mostDangerousType dr sql).is_destructive && flag) := rfl
  rw [hproj, h2]
  simp [QueryType.is_destructive]

/-- Claim C10 witness: the theorem applied to the empty string, to
whitespace-only input, and to `foo bar` (no grammar accepts it, and `FOO`
is not a recognized keyword). -/
theorem degenerate_input_is_other_witness :
    (analyzeQuery drEmptyOk "" = QueryType.other ∧
      mostDangerousType drEmptyOk "" = QueryType.other ∧
      (QuerySafetyCheck.check drEmptyOk "" "unknown" true).requires_confirmation
        = false) ∧
    analyzeQuery drEmptyOk "   \n  " = QueryType.other ∧
    mostDangerousType drAllFail "foo bar" = QueryType.other := by
  refine ⟨degenerate_input_is_other drEmptyOk "" "unknown" true (by decide) ?_,
    (degenerate_input_is_other drEmptyOk "   \n  " "c" false (by decide) ?_).1,
    (degenerate_input_is_other drAllFail "foo bar" "c" true (by decide) ?_).2.1⟩
  · intro w h
    rw [show fallbackFirstWord "" = none from by decide] at h
    exact Option.noConfusion h
  · intro w h
    rw [show fallbackFirstWord "   \n  " = none from by decide] at h
    exact Option.noConfusion h
  · intro w h
    rw [show fallbackFirstWord "foo bar" = some ("FOO".data) from by decide] at h
    injection h with h2
    subst h2
    decide

/-- Helper: the severity if-chain of `most_dangerous_type` returns the
maximum of its input under the fixed severity order (and `Other` — the
minimum — on an empty list). -/
theorem mostDangerousOfTypes_is_max (ts : List QueryType) :
    (∀ t ∈ ts, severity t ≤ severity (mostDangerousOfTypes ts)) ∧
    (mostDangerousOfTypes ts ∈ ts ∨ mostDangerousOfTypes ts = QueryType.other) := by
  unfold mostDangerousOfTypes
  simp only [anyEq_iff_mem]
  by_cases h1 : QueryType.drop ∈ ts
  · rw [if_pos h1]
    exact ⟨fun t ht => by cases t <;> decide, Or.inl h1⟩
  · rw [if_neg h1]
    by_cases h2 : QueryType.truncate ∈ ts
    · rw [if_pos h2]
      refine ⟨fun t ht => ?_, Or.inl h2⟩
      cases t <;> simp_all [severity]
    · rw [if_neg h2]
      by_cases h3 : QueryType.delete ∈ ts
      · rw [if_pos h3]
        refine ⟨fun t ht => ?_, Or.inl h3⟩
        cases t <;> simp_all [severity]
      · rw [if_neg h3]
        by_cases h4 : QueryType.update ∈ ts
        · rw [if_pos h4]
          refine ⟨fun t ht => ?_, Or.inl h4⟩
          cases t <;> simp_all [severity]
        · rw [if_neg h4]
          by_cases h5 : QueryType.alter ∈ ts
          · rw [if_pos h5]
            refine ⟨fun t ht => ?_, Or.inl h5⟩
            cases t <;> simp_all [severity]
          · rw [if_neg h5]
            by_cases h6 : QueryType.insert ∈ ts
            · rw [if_pos h6]
              refine ⟨fun t ht => ?_, Or.inl h6⟩
              cases t <;> simp_all [severity]
            · rw [if_neg h6]
              by_cases h7 : QueryType.create ∈ ts
              · rw [if_pos h7]
                refine ⟨fun t ht => ?_, Or.inl h7⟩
                cases t <;> simp_all [severity]
              · rw [if_neg h7]
                by_cases h8 : QueryType.select ∈ ts
                · rw [if_pos h8]
                  refine ⟨fun t ht => ?_, Or.inl h8⟩
                  cases t <;> simp_all [severity]
                · rw [if_neg h8]
                  refine ⟨fun t ht => ?_, Or.inr rfl⟩
                  cases t <;> simp_all [severity]

/-- Claim C3: `most_dangerous_type` classifies every statement of the
batch (when a dialect parses it) and returns the most severe of the
classifications under the fixed order Drop > Truncate > Delete > Update >
Alter > Insert > Create > Select > Other; in particular, any batch whose
classifications contain a DROP yields `Drop`, regardless of position or
company. -/
theorem most_dangerous_type_is_severity_max (dr : DialectResults)
    (sql : String) :
    (∀ stmts rest, dr = some stmts :: rest →
      analyzeMultiStatement dr sql = stmts.map classifyStatement) ∧
    (∀ t ∈ analyzeMultiStatement dr sql,
      severity t ≤ severity (mostDangerousType dr sql)) ∧
    (mostDangerousType dr sql ∈ analyzeMultiStatement dr sql ∨
      mostDangerousType dr sql = QueryType.other) ∧
    (QueryType.drop ∈ analyzeMultiStatement dr sql →
      mostDangerousType dr sql = QueryType.drop) := by
  refine ⟨?_, (mostDangerousOfTypes_is_max _).1,
    (mostDangerousOfTypes_is_max _).2, ?_⟩
  · rintro stmts rest rfl
    rfl
  · intro h
    unfold mostDangerousType mostDangerousOfTypes
    simp only [anyEq_iff_mem]
    rw [if_pos h]

/-- Claim C3 witness: a three-statement batch with the DROP in the middle
classifies as `Drop`. -/
theorem most_dangerous_type_witness :
    mostDangerousType drDropBatch
      "SELECT * FROM users; DROP TABLE users; INSERT INTO t VALUES (1)" =
      QueryType.drop :=
  (most_dangerous_type_is_severity_max drDropBatch
    "SELECT * FROM users; DROP TABLE users; INSERT INTO t VALUES (1)").2.2.2
    (by decide)

/-- Helper: a plain single-table SELECT body with no disqualifying
feature. -/
def plainSelectOver (rel : TableFactor) (js : List Unit) : QueryAst :=
  { with_ := none
    body := .select
      { distinct := none, group_by := .expressions [], having := none,
        from_ := [{ relation := rel, joins := js }] }
    order_by := none }

/-- Claim C6: `extract_source_table` judges a SELECT editable only when it
is a single plain SELECT statement with no CTEs, set operations,
DISTINCT, GROUP BY (including GROUP BY ALL), HAVING, exactly one
FROM source, no JOINs and a plain table reference, with the checks in
that order and the stated reason strings; a qualifying dotted name of 1,
2 or ≥ 3 parts resolves to (None, table), (schema, table), and
(second-to-last, last) respectively.  `SELECT * FROM users` is editable
with schema `None` and table `users`; a JOIN query and a GROUP BY query
are not editable, with reasons naming JOINs and GROUP BY. -/
theorem extract_source_table_spec :
    (∀ (parts : List String) (s t : String),
      parts.length ≥ 3 → parts.getLast? = some t →
      parts.dropLast.getLast? = some s →
      check_query_editable (plainSelectOver (.table parts none) []) =
        { editable := true, schema := some s, table := some t, reason := none }) ∧
    (∀ t : String,
      check_query_editable (plainSelectOver (.table [t] none) []) =
        { editable := true, schema := none, table := some t, reason := none }) ∧
    (∀ s t : String,
      check_query_editable (plainSelectOver (.table [s, t] none) []) =
        { editable := true, schema := some s, table := some t, reason := none }) ∧
    extractSourceTable drUsers =
      { editable := true, schema := none, table := some "users", reason := none } ∧
    (extractSourceTable drJoin).editable = false ∧
    (extractSourceTable drJoin).reason = some "Query uses JOINs" ∧
    (extractSourceTable drGroupBy).editable = false ∧
    (extractSourceTable drGroupBy).reason = some "Query uses GROUP BY" ∧
    (∀ (stmts : List Stmt) (rest : DialectResults), stmts.length ≠ 1 →
      extractSourceTable (some stmts :: rest) =
        EditableInfo.not_editable "Multiple statements") ∧
    (∀ (stmt : Stmt) (rest : DialectResults), (∀ q, stmt ≠ .query q) →
      extractSourceTable (some [stmt] :: rest) =
        EditableInfo.not_editable "Not a SELECT query") ∧
    (∀ (b : SetExpr) ob, check_query_editable ⟨some (), b, ob⟩ =
      EditableInfo.not_editable "Query uses CTEs") ∧
    (∀ ob, check_query_editable ⟨none, .otherSet, ob⟩ =
      EditableInfo.not_editable "Query uses set operations") ∧
    (∀ gb hv fr ob,
      check_query_editable ⟨none, .select ⟨some (), gb, hv, fr⟩, ob⟩ =
        EditableInfo.not_editable "Query uses DISTINCT") ∧
    (∀ hv fr ob, check_query_editable ⟨none, .select ⟨none, .all, hv, fr⟩, ob⟩ =
      EditableInfo.not_editable "Query uses GROUP BY ALL") ∧
    (∀ e es fr ob,
      check_query_editable
          ⟨none, .select ⟨none, .expressions (e :: es), some (), fr⟩, ob⟩ =
        EditableInfo.not_editable "Query uses GROUP BY") ∧
    (∀ fr ob,
      check_query_editable ⟨none, .select ⟨none, .expressions [], some (), fr⟩, ob⟩ =
        EditableInfo.not_editable "Query uses HAVING") ∧
    (∀ ob, check_query_editable ⟨none, .select ⟨none, .expressions [], none, []⟩, ob⟩ =
      EditableInfo.not_editable "Query must have exactly one table in FROM") ∧
    (∀ twj1 twj2 twjs ob,
      check_query_editable
          ⟨none, .select ⟨none, .expressions [], none, twj1 :: twj2 :: twjs⟩, ob⟩ =
        EditableInfo.not_editable "Query must have exactly one table in FROM") ∧
    (∀ rel j js, check_query_editable (plainSelectOver rel (j :: js)) =
      EditableInfo.not_editable "Query uses JOINs") ∧
    (∀ nm, check_query_editable (plainSelectOver (.table nm (some ())) []) =
      EditableInfo.not_editable "FROM clause is a table-valued function") ∧
    (check_query_editable (plainSelectOver .otherFactor []) =
      EditableInfo.not_editable "FROM clause is not a simple table") ∧
    (check_query_editable (plainSelectOver (.table [] none) []) =
      EditableInfo.not_editable "Could not parse table name") := by
  refine ⟨?_, fun t => rfl, fun s t => rfl, by decide, by decide, by decide,
    by decide, by decide, ?_, ?_, fun b ob => rfl, fun ob => rfl,
    fun gb hv fr ob => rfl, fun hv fr ob => rfl, fun e es fr ob => rfl,
    fun fr ob => rfl, fun ob => rfl, fun twj1 twj2 twjs ob => rfl,
    fun rel j js => rfl, fun nm => rfl, rfl, rfl⟩
  · intro parts s t hlen hlast hsnd
    have hids : identsToSchemaTable parts = some (some s, t) := by
      rcases parts with _ | ⟨a, _ | ⟨b, _ | ⟨c, tl⟩⟩⟩
      · simp at hlen
      · simp at hlen
      · simp at hlen
      · unfold identsToSchemaTable
        rw [if_pos (by simp), hlast, hsnd]
    unfold check_query_editable plainSelectOver groupByReason
    simp [hids]
  · intro stmts rest hne
    rcases stmts with _ | ⟨s1, _ | ⟨s2, tl⟩⟩
    · rfl
    · exact absurd rfl hne
    · cases s1 <;> rfl
  · intro stmt rest hnq
    cases stmt
    case query q => exact absurd rfl (hnq q)
    all_goals rfl

/-- Claim C6 witness: the ≥ 3-part resolution applied to
`catalog.schema.table`. -/
theorem extract_source_table_spec_witness :
    check_query_editable
        (plainSelectOver (.table ["cat", "sch", "tab"] none) []) =
      { editable := true, schema := some "sch", table := some "tab",
        reason := none } :=
  extract_source_table_spec.1 ["cat", "sch", "tab"] "sch" "tab"
    (by decide) (by decide) (by decide)

/-- Helper: the `check_known_hosts` line loop finds nothing when no line
matches the host. -/
theorem checkKnownHostsLoop_none (host : String) (kt kb : List Char) :
    ∀ lines : List String, (∀ l ∈ lines, lineMatchesHost host l = false) →
      checkKnownHostsLoop host kt kb lines = none := by
  intro lines
  induction lines with
  | nil => intro _; rfl
  | cons line rest ih =>
    intro h
    have h0 := h line (List.mem_cons_self _ _)
    have hrest := ih (fun l hl => h l (List.mem_cons_of_mem _ hl))
    unfold checkKnownHostsLoop
    unfold lineMatchesHost at h0
    by_cases hb : ((rustTrim line.data).isEmpty
        || (rustTrim line.data).head? = some '#') = true
    · rw [if_pos hb]
      exact hrest
    · rw [if_neg hb]
      rw [Bool.not_eq_true] at hb
      rw [hb] at h0
      simp only [Bool.not_false, Bool.true_and, decide_eq_false_iff_not] at h0
      rw [if_pos h0]
      exact hrest

/-- Helper: the line loop stops at the first line matching the host and
answers by comparing its stored key type and key. -/
theorem checkKnownHostsLoop_found (host : String) (kt kb : List Char)
    (line : String) (post : List String)
    (hline : lineMatchesHost host line = true) :
    ∀ pre : List String, (∀ l ∈ pre, lineMatchesHost host l = false) →
      checkKnownHostsLoop host kt kb (pre ++ line :: post) =
        (if (splitnThreeFields (rustTrim line.data)).2.1 = kt ∧
            (splitnThreeFields (rustTrim line.data)).2.2 = kb
          then some (.ok true)
          else some (.error (.hostKeyMismatch host))) := by
  intro pre
  induction pre with
  | nil =>
    intro _
    simp only [List.nil_append]
    unfold checkKnownHostsLoop
    unfold lineMatchesHost at hline
    rw [Bool.and_eq_true] at hline
    obtain ⟨hnb, hfield⟩ := hline
    rw [Bool.not_eq_true'] at hnb
    rw [if_neg (by rw [hnb]; exact Bool.false_ne_true)]
    rw [if_neg (fun hne => hne (of_decide_eq_true hfield))]
  | cons p ps ih =>
    intro h
    have h0 := h p (List.mem_cons_self _ _)
    have hrest := ih (fun l hl => h l (List.mem_cons_of_mem _ hl))
    rw [List.cons_append]
    unfold checkKnownHostsLoop
    unfold lineMatchesHost at h0
    by_cases hb : ((rustTrim p.data).isEmpty
        || (rustTrim p.data).head? = some '#') = true
    · rw [if_pos hb]
      exact hrest
    · rw [if_neg hb]
      rw [Bool.not_eq_true] at hb
      rw [hb] at h0
      simp only [Bool.not_false, Bool.true_and, decide_eq_false_iff_not] at h0
      rw [if_pos h0]
      exact hrest

/-- Claim C4: host-key checking is trust-on-first-use.  With the
`known_hosts` file as a line list and the presented key in OpenSSH form:
an unknown host string appends one `host keytype keyb64` line and
accepts; a known host whose first matching line carries the same key type
and base64 key accepts without touching the file; a known host whose
entry differs in key type or key fails with a host-key-mismatch error;
and whenever the check succeeds the resulting file extends the original
(entries are never overwritten). -/
theorem check_known_hosts_trust_on_first_use (lines : List String)
    (host openssh : String) (kt kb : List Char)
    (hkt : (splitnThreeFields openssh.data).1 = kt)
    (hkb : (splitnThreeFields openssh.data).2.1 = kb) :
    ((∀ line ∈ lines, lineMatchesHost host line = false) →
      check_known_hosts lines host openssh =
        .ok (true, lines ++ [host ++ " " ++ (⟨kt⟩ : String) ++ " " ++ ⟨kb⟩])) ∧
    (∀ pre line post,
      lines = pre ++ line :: post →
      (∀ l ∈ pre, lineMatchesHost host l = false) →
      lineMatchesHost host line = true →
      (((splitnThreeFields (rustTrim line.data)).2.1 = kt ∧
          (splitnThreeFields (rustTrim line.data)).2.2 = kb) →
        check_known_hosts lines host openssh = .ok (true, lines)) ∧
      (¬ ((splitnThreeFields (rustTrim line.data)).2.1 = kt ∧
          (splitnThreeFields (rustTrim line.data)).2.2 = kb) →
        check_known_hosts lines host openssh =
          .error (.hostKeyMismatch host))) ∧
    (∀ b ls, check_known_hosts lines host openssh = .ok (b, ls) →
      lines <+: ls) := by
  subst hkt
  subst hkb
  refine ⟨?_, ?_, ?_⟩
  · intro hnone
    unfold check_known_hosts
    rw [checkKnownHostsLoop_none host _ _ lines hnone]
  · rintro pre line post rfl hpre hline
    constructor
    · intro hsame
      unfold check_known_hosts
      rw [checkKnownHostsLoop_found host _ _ line post hline pre hpre,
        if_pos hsame]
    · intro hdiff
      unfold check_known_hosts
      rw [checkKnownHostsLoop_found host _ _ line post hline pre hpre,
        if_neg hdiff]
  · intro b ls heq
    unfold check_known_hosts at heq
    rcases hloop : checkKnownHostsLoop host
        (splitnThreeFields openssh.data).1
        (splitnThreeFields openssh.data).2.1 lines with _ | r
    · rw [hloop] at heq
      simp only [Except.ok.injEq, Prod.mk.injEq] at heq
      rw [← heq.2]
      exact List.prefix_append _ _
    · rw [hloop] at heq
      cases r with
      | ok b' =>
        simp only [Except.ok.injEq, Prod.mk.injEq] at heq
        rw [← heq.2]
      | error e => exact absurd heq (by simp)

/-- Claim C4 witness: the three behaviours at a concrete two-line store. -/
theorem check_known_hosts_trust_on_first_use_witness :
    check_known_hosts ["# hosts", "h1:22 ssh-ed25519 KEYA"]
        "h2:2222" "ssh-ed25519 KEYB c2" =
      .ok (true, ["# hosts", "h1:22 ssh-ed25519 KEYA",
        "h2:2222 ssh-ed25519 KEYB"]) ∧
    check_known_hosts ["# hosts", "h1:22 ssh-ed25519 KEYA"]
        "h1:22" "ssh-ed25519 KEYA c3" =
      .ok (true, ["# hosts", "h1:22 ssh-ed25519 KEYA"]) ∧
    check_known_hosts ["# hosts", "h1:22 ssh-ed25519 KEYA"]
        "h1:22" "ssh-ed25519 KEYB c4" =
      .error (.hostKeyMismatch "h1:22") := by
  refine ⟨?_, ?_, ?_⟩
  · have h := (check_known_hosts_trust_on_first_use
      ["# hosts", "h1:22 ssh-ed25519 KEYA"] "h2:2222"
      "ssh-ed25519 KEYB c2" _ _ rfl rfl).1 (by decide)
    rw [h]
    rw [show ("h2:2222" ++ " "
        ++ (⟨(splitnThreeFields "ssh-ed25519 KEYB c2".data).1⟩ : String)
        ++ " " ++ (⟨(splitnThreeFields "ssh-ed25519 KEYB c2".data).2.1⟩ : String))
      = "h2:2222 ssh-ed25519 KEYB" from by decide]
    rfl
  · exact ((check_known_hosts_trust_on_first_use
      ["# hosts", "h1:22 ssh-ed25519 KEYA"] "h1:22"
      "ssh-ed25519 KEYA c3" _ _ rfl rfl).2.1 ["# hosts"]
      "h1:22 ssh-ed25519 KEYA" [] rfl (by decide) (by decide)).1
      (by decide)
  · exact ((check_known_hosts_trust_on_first_use
      ["# hosts", "h1:22 ssh-ed25519 KEYA"] "h1:22"
      "ssh-ed25519 KEYB c4" _ _ rfl rfl).2.1 ["# hosts"]
      "h1:22 ssh-ed25519 KEYA" [] rfl (by decide) (by decide)).2
      (by decide)

/-- Helper: the Postgres WHERE fragment built by `update_cell` depends
only on the primary-key column names, never on the values. -/
theorem pgWhere_names_only :
    ∀ (pks pks' : List (String × String)) (k : Nat),
      pks.map Prod.fst = pks'.map Prod.fst →
      (List.enumFrom k pks).map
          (fun p => quote_ident p.2.1 ++ " = $" ++ toString (p.1 + 2)) =
        (List.enumFrom k pks').map
          (fun p => quote_ident p.2.1 ++ " = $" ++ toString (p.1 + 2)) := by
  intro pks
  induction pks with
  | nil =>
    intro pks' k h
    cases pks' with
    | nil => rfl
    | cons q qs => simp at h
  | cons p ps ih =>
    intro pks' k h
    cases pks' with
    | nil => simp at h
    | cons q qs =>
      simp only [List.map_cons, List.cons.injEq] at h
      obtain ⟨h1, h2⟩ := h
      show (quote_ident p.1 ++ " = $" ++ toString (k + 2))
          :: (List.enumFrom (k + 1) ps).map _ = _
      rw [h1, ih qs (k + 1) h2]
      rfl

/-- Helper: `pgWhere_names_only` restated for `List.enum`. -/
theorem pgWhere_enum_names_only (pks pks' : List (String × String))
    (h : pks.map Prod.fst = pks'.map Prod.fst) :
    pks.enum.map (fun p => quote_ident p.2.1 ++ " = $" ++ toString (p.1 + 2)) =
      pks'.enum.map
        (fun p => quote_ident p.2.1 ++ " = $" ++ toString (p.1 + 2)) :=
  pgWhere_names_only pks pks' 0 h

/-- Helper: the SQLite WHERE fragment depends only on the key names. -/
theorem sqWhere_names_only :
    ∀ (pks pks' : List (String × String)),
      pks.map Prod.fst = pks'.map Prod.fst →
      pks.map (fun p => quote_ident p.1 ++ " = ?") =
        pks'.map (fun p => quote_ident p.1 ++ " = ?") := by
  intro pks
  induction pks with
  | nil =>
    intro pks' h
    cases pks' with
    | nil => rfl
    | cons q qs => simp at h
  | cons p ps ih =>
    intro pks' h
    cases pks' with
    | nil => simp at h
    | cons q qs =>
      simp only [List.map_cons, List.cons.injEq] at h
      obtain ⟨h1, h2⟩ := h
      simp only [List.map_cons]
      rw [h1, ih qs h2]

/-- Claim C7: `update_cell` fails — issuing no statement — whenever the
primary-key list is empty; for a non-empty key list it builds one
single-column parameterized UPDATE whose WHERE clause ANDs one equality
predicate per primary-key column, with schema, table and column
identifiers quoted, the statement text depending only on the identifier
names (never on values — values travel exclusively in the bind list, new
value first, key values after), with `$1..$n` placeholders on Postgres
and `?` placeholders on SQLite; a two-column composite key yields both
predicates ANDed with backend-correct placeholders. -/
theorem update_cell_spec :
    (∀ backend schema table column nv,
      update_cell backend schema table column nv [] =
        .error "No primary key columns provided") ∧
    (∀ backend schema table column nv nv'
        (pks pks' : List (String × String)),
      pks.map Prod.fst = pks'.map Prod.fst →
      ((update_cell backend schema table column nv pks).toOption.map
          BuiltUpdate.sql =
        (update_cell backend schema table column nv' pks').toOption.map
          BuiltUpdate.sql) ∧
      ((update_cell backend schema table column nv pks).toOption.map
          BuiltUpdate.binds =
        if pks.isEmpty then none
        else some (nv :: pks.map (fun p => some p.2)))) ∧
    (update_cell .postgres "public" "t" "c" (some "v") [("a", "1"), ("b", "2")] =
      .ok { sql :=
              "UPDATE \"public\".\"t\" SET \"c\" = $1 WHERE \"a\" = $2 AND \"b\" = $3",
            binds := [some "v", some "1", some "2"] }) ∧
    (update_cell .sqlite "main" "t" "c" none [("a", "1"), ("b", "2")] =
      .ok { sql := "UPDATE \"main\".\"t\" SET \"c\" = ? WHERE \"a\" = ? AND \"b\" = ?",
            binds := [none, some "1", some "2"] }) := by
  refine ⟨fun backend s t c nv => rfl, ?_, rfl, rfl⟩
  intro backend s t c nv nv' pks pks' h
  by_cases hpe : pks = []
  · subst hpe
    have hpe' : pks' = [] := by simpa using h.symm
    subst hpe'
    exact ⟨rfl, rfl⟩
  · have hpe' : pks' ≠ [] := fun he => hpe (by subst he; simpa using h)
    have hie : pks.isEmpty = false := by
      cases pks with
      | nil => exact absurd rfl hpe
      | cons _ _ => rfl
    have hie' : pks'.isEmpty = false := by
      cases pks' with
      | nil => exact absurd rfl hpe'
      | cons _ _ => rfl
    cases backend with
    | postgres =>
      refine ⟨?_, ?_⟩
      · simp only [update_cell, hie, hie', Bool.false_eq_true, if_false,
          Except.toOption]
        rw [pgWhere_enum_names_only pks pks' h]
        rfl
      · simp only [update_cell, hie, Bool.false_eq_true, if_false,
          Except.toOption]
        rfl
    | sqlite =>
      refine ⟨?_, ?_⟩
      · simp only [update_cell, hie, hie', Bool.false_eq_true, if_false,
          Except.toOption]
        rw [sqWhere_names_only pks pks' h]
        rfl
      · simp only [update_cell, hie, Bool.false_eq_true, if_false,
          Except.toOption]
        rfl

/-- Claim C7 witness: value-independence and bind shape at a concrete
single-column key. -/
theorem update_cell_spec_witness :
    ((update_cell .postgres "s" "t" "c" (some "x") [("a", "1")]).toOption.map
        BuiltUpdate.sql =
      (update_cell .postgres "s" "t" "c" none [("a", "9")]).toOption.map
        BuiltUpdate.sql) ∧
    ((update_cell .postgres "s" "t" "c" (some "x") [("a", "1")]).toOption.map
        BuiltUpdate.binds = some [some "x", some "1"]) := by
  have h := update_cell_spec.2.1 .postgres "s" "t" "c" (some "x") none
    [("a", "1")] [("a", "9")] (by decide)
  exact ⟨h.1, h.2.trans (by decide)⟩

/-- Helper: the retained rows are a sublist of the backend rows. -/
theorem keptRows_sublist {Cell : Type} (br : List (BackendRow Cell)) :
    List.Sublist (keptRows br) br := by
  unfold keptRows
  by_cases h : truncatedFlag br = true
  · rw [if_pos h]
    exact ((collectedRows br).dropLast_sublist).trans (List.take_sublist _ _)
  · rw [if_neg h]
    exact List.take_sublist _ _

/-- Helper: the retained row count is `min`(backend rows, cap). -/
theorem keptRows_length {Cell : Type} (br : List (BackendRow Cell)) :
    (keptRows br).length = min br.length DEFAULT_ROW_LIMIT := by
  unfold keptRows
  by_cases h : truncatedFlag br = true
  · rw [if_pos h]
    simp only [truncatedFlag, collectedRows, decide_eq_true_eq,
      List.length_take, DEFAULT_ROW_LIMIT] at h
    simp only [List.length_dropLast, List.length_take, collectedRows,
      DEFAULT_ROW_LIMIT]
    omega
  · rw [if_neg h]
    simp only [truncatedFlag, collectedRows, decide_eq_true_eq,
      List.length_take, DEFAULT_ROW_LIMIT] at h
    simp only [List.length_take, collectedRows, DEFAULT_ROW_LIMIT]
    omega

/-- Helper: the truncation flag says "the backend produced more rows than
the cap". -/
theorem truncatedFlag_eq {Cell : Type} (br : List (BackendRow Cell)) :
    truncatedFlag br = decide (br.length > DEFAULT_ROW_LIMIT) := by
  unfold truncatedFlag collectedRows
  rw [List.length_take]
  exact decide_eq_decide.mpr (by unfold DEFAULT_ROW_LIMIT; omega)

/-- Claim C5: every `QueryResult` produced by `execute_query` is
well-formed: `columns`, `column_types` and every decoded row have equal
lengths (given the sqlx guarantee that all rows of one statement share
the column metadata); at most `DEFAULT_ROW_LIMIT = 1000` rows are
retained; `truncated` is true iff the backend produced more than the cap
(`cap+1` backend rows → truncated with `cap` rows kept, exactly `cap` →
not truncated, all kept); and an empty result yields empty column and
type lists rather than an error. -/
theorem execute_query_result_shape {Cell : Type}
    (decodeCell : String → Cell → Option String)
    (backendRows : List (BackendRow Cell)) (tms m : Nat)
    (hmeta : ∀ r ∈ backendRows, r.meta.length = m) :
    (executeQueryResult decodeCell backendRows tms).columns.length =
      (executeQueryResult decodeCell backendRows tms).column_types.length ∧
    (∀ row ∈ (executeQueryResult decodeCell backendRows tms).rows,
      row.length =
        (executeQueryResult decodeCell backendRows tms).columns.length) ∧
    (executeQueryResult decodeCell backendRows tms).rows.length =
      min backendRows.length DEFAULT_ROW_LIMIT ∧
    (executeQueryResult decodeCell backendRows tms).truncated =
      decide (backendRows.length > DEFAULT_ROW_LIMIT) ∧
    (backendRows.length = DEFAULT_ROW_LIMIT + 1 →
      (executeQueryResult decodeCell backendRows tms).truncated = true ∧
      (executeQueryResult decodeCell backendRows tms).rows.length =
        DEFAULT_ROW_LIMIT) ∧
    (backendRows.length = DEFAULT_ROW_LIMIT →
      (executeQueryResult decodeCell backendRows tms).truncated = false ∧
      (executeQueryResult decodeCell backendRows tms).rows.length =
        DEFAULT_ROW_LIMIT) ∧
    (backendRows = [] →
      (executeQueryResult decodeCell backendRows tms).columns = [] ∧
      (executeQueryResult decodeCell backendRows tms).column_types = [] ∧
      (executeQueryResult decodeCell backendRows tms).rows = []) := by
  have hc3 : (executeQueryResult decodeCell backendRows tms).rows.length =
      min backendRows.length DEFAULT_ROW_LIMIT := by
    simp only [executeQueryResult, List.length_map]
    exact keptRows_length backendRows
  have hc4 : (executeQueryResult decodeCell backendRows tms).truncated =
      decide (backendRows.length > DEFAULT_ROW_LIMIT) :=
    truncatedFlag_eq backendRows
  refine ⟨by simp [executeQueryResult], ?_, hc3, hc4, ?_, ?_, ?_⟩
  · intro row hrow
    simp only [executeQueryResult, List.mem_map] at hrow
    obtain ⟨r, hr, rfl⟩ := hrow
    have hr' : r ∈ backendRows := (keptRows_sublist backendRows).subset hr
    have h1 : (decodeRow decodeCell r).length = r.meta.length := by
      simp [decodeRow]
    cases hk : (keptRows backendRows).head? with
    | none =>
      rw [List.head?_eq_none_iff] at hk
      rw [hk] at hr
      cases hr
    | some r0 =>
      have hr0 : r0 ∈ backendRows :=
        (keptRows_sublist backendRows).subset
          (List.mem_of_mem_head? (Option.mem_def.mpr hk))
      simp only [executeQueryResult, firstRowMeta, hk, List.length_map]
      rw [h1, hmeta r hr', hmeta r0 hr0]
  · intro hL
    refine ⟨?_, ?_⟩
    · rw [hc4, hL]
      decide
    · rw [hc3, hL]
      decide
  · intro hL
    refine ⟨?_, ?_⟩
    · rw [hc4, hL]
      decide
    · rw [hc3, hL]
      decide
  · rintro rfl
    exact ⟨rfl, rfl, rfl⟩

/-- Claim C5 witness: 1001 uniform backend rows truncate to 1000, and
1000 rows pass through untruncated. -/
theorem execute_query_result_shape_witness :
    ((executeQueryResult (fun _ (_ : Unit) => some "v")
        (List.replicate 1001 ⟨[("c", "INT4")], [()]⟩) 5).truncated = true ∧
      (executeQueryResult (fun _ (_ : Unit) => some "v")
        (List.replicate 1001 ⟨[("c", "INT4")], [()]⟩) 5).rows.length =
        DEFAULT_ROW_LIMIT) ∧
    ((executeQueryResult (fun _ (_ : Unit) => some "v")
        (List.replicate 1000 ⟨[("c", "INT4")], [()]⟩) 5).truncated = false ∧
      (executeQueryResult (fun _ (_ : Unit) => some "v")
        (List.replicate 1000 ⟨[("c", "INT4")], [()]⟩) 5).rows.length =
        DEFAULT_ROW_LIMIT) :=
  ⟨(execute_query_result_shape (fun _ _ => some "v")
      (List.replicate 1001 ⟨[("c", "INT4")], [()]⟩) 5 1
      (fun r hr => by rw [List.eq_of_mem_replicate hr]; rfl)).2.2.2.2.1
      (by rw [List.length_replicate]; rfl),
   (execute_query_result_shape (fun _ _ => some "v")
      (List.replicate 1000 ⟨[("c", "INT4")], [()]⟩) 5 1
      (fun r hr => by rw [List.eq_of_mem_replicate hr]; rfl)).2.2.2.2.2.1
      (by rw [List.length_replicate]; rfl)⟩

/-- Helper: decoding inverts the alphabet on every sextet. -/
theorem b64index_b64char : ∀ n < 64, b64index (b64char n) = some n := by
  decide

/-- Helper: no alphabet character is the padding character. -/
theorem b64char_ne_pad : ∀ n < 64, b64char n ≠ '=' := by
  decide

/-- Helper: base64 decode inverts encode on every byte list. -/
theorem b64_roundtrip : ∀ l : List Nat, (∀ b ∈ l, b < 256) →
    b64decodeChars (b64encodeChars l) = some l := by
  intro l
  induction l using b64encodeChars.induct with
  | case1 =>
    intro _
    rfl
  | case2 b1 =>
    intro h
    have hb1 : b1 < 256 := h b1 (by simp)
    show b64decodeChars
        [b64char (b1 / 4), b64char (b1 % 4 * 16), '=', '='] = some [b1]
    unfold b64decodeChars
    rw [b64index_b64char (b1 / 4) (by omega),
      b64index_b64char (b1 % 4 * 16) (by omega)]
    simp only [if_pos rfl, and_self, ite_true]
    refine congrArg some ?_
    refine congrArg (fun x => [x]) ?_
    omega
  | case3 b1 b2 =>
    intro h
    have hb1 : b1 < 256 := h b1 (by simp)
    have hb2 : b2 < 256 := h b2 (by simp)
    show b64decodeChars [b64char (b1 / 4), b64char (b1 % 4 * 16 + b2 / 16),
        b64char (b2 % 16 * 4), '='] = some [b1, b2]
    unfold b64decodeChars
    rw [b64index_b64char (b1 / 4) (by omega),
      b64index_b64char (b1 % 4 * 16 + b2 / 16) (by omega)]
    simp only []
    rw [if_neg (b64char_ne_pad (b2 % 16 * 4) (by omega))]
    rw [b64index_b64char (b2 % 16 * 4) (by omega)]
    simp only [if_true]
    refine congrArg some ?_
    have e1 : b1 / 4 * 4 + (b1 % 4 * 16 + b2 / 16) / 16 = b1 := by omega
    have e2 : (b1 % 4 * 16 + b2 / 16) % 16 * 16 + b2 % 16 * 4 / 4 = b2 := by
      omega
    rw [e1, e2]
  | case4 b1 b2 b3 rest ih =>
    intro h
    have hb1 : b1 < 256 := h b1 (by simp)
    have hb2 : b2 < 256 := h b2 (by simp)
    have hb3 : b3 < 256 := h b3 (by simp)
    have hrest := ih (fun b hb => h b (by simp [hb]))
    show b64decodeChars (b64char (b1 / 4) :: b64char (b1 % 4 * 16 + b2 / 16)
        :: b64char (b2 % 16 * 4 + b3 / 64) :: b64char (b3 % 64)
        :: b64encodeChars rest) = some (b1 :: b2 :: b3 :: rest)
    unfold b64decodeChars
    rw [b64index_b64char (b1 / 4) (by omega),
      b64index_b64char (b1 % 4 * 16 + b2 / 16) (by omega)]
    simp only []
    rw [if_neg (b64char_ne_pad (b2 % 16 * 4 + b3 / 64) (by omega))]
    rw [b64index_b64char (b2 % 16 * 4 + b3 / 64) (by omega)]
    simp only []
    rw [if_neg (b64char_ne_pad (b3 % 64) (by omega))]
    rw [b64index_b64char (b3 % 64) (by omega)]
    simp only []
    rw [hrest]
    simp only [Option.map_some']
    refine congrArg some ?_
    have e1 : b1 / 4 * 4 + (b1 % 4 * 16 + b2 / 16) / 16 = b1 := by omega
    have e2 : (b1 % 4 * 16 + b2 / 16) % 16 * 16
        + (b2 % 16 * 4 + b3 / 64) / 4 = b2 := by omega
    have e3 : (b2 % 16 * 4 + b3 / 64) % 4 * 64 + b3 % 64 = b3 := by omega
    rw [e1, e2, e3]

/-- Claim C9: encrypting a plaintext (a UTF-8 byte string) and decrypting
the result under the same persisted 32-byte key yields the original
plaintext byte-for-byte.  The AES-256-GCM primitive is a parameter pair
(`sealAead`/`openAead`) assumed inverse at the used key and nonce (the
correctness contract of `ring`'s AEAD), the nonce is the 12-byte value
generated by `encrypt`, and the plaintext satisfies the UTF-8 validity
check that `String::from_utf8` performs (every `&str` does). -/
theorem encrypt_decrypt_roundtrip
    (sealAead : List Nat → List Nat → List Nat → List Nat)
    (openAead : List Nat → List Nat → List Nat → Option (List Nat))
    (isValidUtf8 : List Nat → Bool)
    (key nonce pt : List Nat)
    (hn : nonce.length = NONCE_LEN)
    (hnb : ∀ b ∈ nonce, b < 256)
    (hcb : ∀ b ∈ sealAead key nonce pt, b < 256)
    (hinv : openAead key nonce (sealAead key nonce pt) = some pt)
    (hutf : isValidUtf8 pt = true) :
    EncryptedPassword.decrypt openAead isValidUtf8 key
      (EncryptedPassword.encrypt sealAead key nonce pt) = .ok pt := by
  unfold EncryptedPassword.decrypt EncryptedPassword.encrypt
  rw [b64_roundtrip _ hcb, b64_roundtrip _ hnb]
  simp only []
  rw [if_neg (fun hne => hne hn)]
  rw [hinv]
  simp only []
  rw [if_pos hutf]

/-- Claim C9 witness: the round-trip theorem applied to a concrete
two-byte plaintext and to the empty plaintext, with a concrete
append-a-tag sealer and its drop-the-tag opener. -/
theorem encrypt_decrypt_roundtrip_witness :
    EncryptedPassword.decrypt (fun _ _ c => some c.dropLast) (fun _ => true)
      (List.replicate 32 0)
      (EncryptedPassword.encrypt (fun _ _ m => m ++ [171])
        (List.replicate 32 0) (List.replicate 12 7) [104, 105]) =
      .ok [104, 105] ∧
    EncryptedPassword.decrypt (fun _ _ c => some c.dropLast) (fun _ => true)
      (List.replicate 32 0)
      (EncryptedPassword.encrypt (fun _ _ m => m ++ [171])
        (List.replicate 32 0) (List.replicate 12 7) []) = .ok [] :=
  ⟨encrypt_decrypt_roundtrip _ _ _ _ _ _ (by decide) (by decide) (by decide)
    (by decide) rfl,
   encrypt_decrypt_roundtrip _ _ _ _ _ _ (by decide) (by decide) (by decide)
    (by decide) rfl⟩

end Dendron
